import Mathlib

/-!
Verification of the Game of Life implementation (`src/main.go`).

The Go program stores live cells sparsely in a `map[Cell]struct{}`; a Go map
is a finite set of keys with unspecified iteration order.  We embed a cell
set as a `List Cell` (the in-memory enumeration) and every operation on it is
defined membership-faithfully, mirroring the source line by line.  Machine
`int64` coordinates become `Int` together with the explicit bounds
`minInt64 = -(2^63)` and `maxInt64 = 2^63 - 1` used by the boundary checks in
`Cell.neighbors`.  The file parser and printer are embedded over lists of
lines, each line a `List Char`.
-/

set_option maxHeartbeats 1000000

/-- `math.MinInt64` of the Go source, `-(2^63)`. -/
def minInt64 : Int := -9223372036854775808

/-- `math.MaxInt64` of the Go source, `2^63 - 1`. -/
def maxInt64 : Int := 9223372036854775807

/-- `type Cell struct { x, y int64 }` (src/main.go line 22). -/
structure Cell where
  x : Int
  y : Int
deriving DecidableEq

/-- The inner closure `yieldForX` of `Cell.neighbors` (src/main.go lines
29-39): for a fixed column `x` it yields `(x, y-1)` unless `y` is at the
minimum, `(x, y)` unless that is the cell itself, and `(x, y+1)` unless `y`
is at the maximum. -/
def yieldForX (cell : Cell) (x : Int) : List Cell :=
  (if cell.y > minInt64 then [Cell.mk x (cell.y - 1)] else []) ++
  (if cell.x ≠ x then [Cell.mk x cell.y] else []) ++
  (if cell.y < maxInt64 then [Cell.mk x (cell.y + 1)] else [])

/-- `func (cell Cell) neighbors() <-chan Cell` (src/main.go lines 26-55).
The goroutine emits, in order, the column `x-1` (skipped when `x` is at the
minimum), the column `x`, and the column `x+1` (skipped when `x` is at the
maximum); the channel yields a deterministic finite sequence, embedded here
as the list of yielded cells. -/
def Cell.neighbors (cell : Cell) : List Cell :=
  (if cell.x > minInt64 then yieldForX cell (cell.x - 1) else []) ++
  yieldForX cell cell.x ++
  (if cell.x < maxInt64 then yieldForX cell (cell.x + 1) else [])

/-- `func (cells Cells) hasCell(cell Cell) bool` (src/main.go lines 94-97):
a map lookup, i.e. the membership test. -/
def hasCell (cells : List Cell) (cell : Cell) : Bool :=
  decide (cell ∈ cells)

/-- `func (cells Cells) addCell(cell Cell)` (src/main.go lines 90-92):
map insertion; a no-op when the key is already present. -/
def addCell (cells : List Cell) (cell : Cell) : List Cell :=
  if hasCell cells cell then cells else cell :: cells

/-- `func (cells Cells) removeCell(cell Cell)` (src/main.go lines 99-101):
map deletion of the key. -/
def removeCell (cells : List Cell) (cell : Cell) : List Cell :=
  cells.filter (fun c => !(decide (c = cell)))

/-- `func (cells Cells) numAliveNeighbors(cell Cell) uint8` (src/main.go
lines 59-67): count the neighbors of `cell` that are members of `cells`.
At most 8 neighbors exist, so the `uint8` counter cannot overflow and `Nat`
is a faithful embedding. -/
def numAliveNeighbors (cells : List Cell) (cell : Cell) : Nat :=
  cell.neighbors.countP (fun neighbor => hasCell cells neighbor)

/-- `func (cells Cells) deadNeighbors() <-chan Cell` (src/main.go lines
69-88): for every live cell, every neighbor that is not itself live is added
to a fresh map `deadNeighborCells` (deduplicating), whose keys are then
yielded. -/
def deadNeighbors (cells : List Cell) : List Cell :=
  (cells.flatMap (fun cell => cell.neighbors.filter (fun n => !hasCell cells n))).foldl
    addCell []

/-- One iteration of the simulation loop of `runGameOfLife` (src/main.go
lines 158-187): build `dyingCells` from live cells with fewer than 2 or more
than 3 live neighbors, build `birthedCells` from dead neighbors with exactly
3 live neighbors — both counted against the pre-step `cells` — then remove
every dying cell and add every birthed cell. -/
def step (cells : List Cell) : List Cell :=
  let dyingCells := cells.foldl
    (fun dying c =>
      if decide (numAliveNeighbors cells c < 2 ∨ numAliveNeighbors cells c > 3)
      then addCell dying c else dying) []
  let birthedCells := (deadNeighbors cells).foldl
    (fun birthed c =>
      if numAliveNeighbors cells c == 3 then addCell birthed c else birthed) []
  birthedCells.foldl addCell (dyingCells.foldl removeCell cells)

/-- The `for iteration := 0; iteration < iterations; iteration++` loop of
`runGameOfLife` (src/main.go line 158): apply `step` `iterations` times. -/
def runSimulation (cells : List Cell) : Nat → List Cell
  | 0 => cells
  | Nat.succ n => runSimulation (step cells) n

/-- Whitespace as recognised by `strings.TrimSpace` (ASCII fragment). -/
def isSpaceChar (c : Char) : Bool :=
  c == ' ' || c == '\t' || c == '\n' || c == '\r'

/-- `strings.TrimSpace(line)` (src/main.go line 116): drop leading and
trailing whitespace. -/
def trimSpace (s : List Char) : List Char :=
  ((s.dropWhile isSpaceChar).reverse.dropWhile isSpaceChar).reverse

/-- `strings.HasPrefix(line, "#")` (src/main.go line 117). -/
def isCommentLine (s : List Char) : Bool :=
  match s with
  | '#' :: _ => true
  | _ => false

/-- `const FILE_HEADER = "#Life 1.06"` (src/main.go line 19). -/
def FILE_HEADER : List Char := "#Life 1.06".toList

/-- Decimal value of a digit run, most significant first. -/
def digitsToNat (ds : List Char) : Nat :=
  ds.foldl (fun acc c => acc * 10 + (c.toNat - '0'.toNat)) 0

/-- One `%d` conversion of `fmt.Fscanf` (src/main.go line 125) reading an
`int64`: skip leading spaces, read an optional sign and a non-empty digit
run, and fail when the value does not fit in an `int64` (Go's scanner
surfaces the `strconv` range error).  Returns the value and the unconsumed
rest of the line. -/
def scanSignedInt (s : List Char) : Option (Int × List Char) :=
  let s1 := s.dropWhile isSpaceChar
  let signAndRest : Int × List Char :=
    match s1 with
    | '-' :: rest => (-1, rest)
    | '+' :: rest => (1, rest)
    | _ => (1, s1)
  let ds := signAndRest.2.takeWhile (fun c => c.isDigit)
  let rest := signAndRest.2.dropWhile (fun c => c.isDigit)
  if ds.isEmpty then none
  else
    let v : Int := signAndRest.1 * (digitsToNat ds : Int)
    if v < minInt64 ∨ maxInt64 < v then none else some (v, rest)

/-- `fmt.Fscanf(strings.NewReader(line), "%d %d", &cell.x, &cell.y)`
(src/main.go line 125): two `%d` conversions; the blank in the format and
the conversions themselves skip spaces; input past the format is ignored.
`none` models `items < 2 || err != nil` (src/main.go line 126). -/
def parseLine (s : List Char) : Option Cell :=
  match scanSignedInt s with
  | none => none
  | some (x, rest) =>
    match scanSignedInt rest with
    | none => none
    | some (y, _) => some (Cell.mk x y)

/-- Errors produced by `parseCells` (src/main.go lines 127 and 133):
`malformedLine k` carries the number interpolated into
`"failed to parse line '%d'"`, namely `len(cells)+1`; `missingHeader` is the
`"Invalid Game of Life file"` error. -/
inductive ParseError where
  | malformedLine (k : Nat)
  | missingHeader
deriving DecidableEq

/-- The scanner loop of `parseCells` (src/main.go lines 112-136), with the
accumulated cell map and the `headerFound` flag as explicit state.  Each
line is trimmed; a `#`-prefixed line sets `headerFound` when it equals
`FILE_HEADER` and no cell has been stored yet, and is otherwise skipped;
any other line must scan as two integers or the loop aborts with the
malformed-line error carrying `len(cells)+1`.  After the last line a
missing header is reported. -/
def parseCellsAux (cells : List Cell) (headerFound : Bool) :
    List (List Char) → Except ParseError (List Cell)
  | [] => if headerFound then Except.ok cells else Except.error ParseError.missingHeader
  | rawLine :: rest =>
    let line := trimSpace rawLine
    if isCommentLine line then
      parseCellsAux cells
        (headerFound || (line == FILE_HEADER && cells.length == 0)) rest
    else
      match parseLine line with
      | some cell => parseCellsAux (addCell cells cell) headerFound rest
      | none => Except.error (ParseError.malformedLine (cells.length + 1))

/-- `func parseCells(inputFile string) (Cells, error)` (src/main.go lines
103-137), over the file's lines (the `bufio.Scanner` splits the file into
lines). -/
def parseCells (lines : List (List Char)) : Except ParseError (List Cell) :=
  parseCellsAux [] false lines

/-- Decimal rendering of `fmt.Fprintf("%d", i)`. -/
def intToChars (i : Int) : List Char :=
  if i < 0 then '-' :: Nat.toDigits 10 i.natAbs else Nat.toDigits 10 i.toNat

/-- One `"%d %d\n"` record of `printCells` (src/main.go line 144). -/
def cellLine (c : Cell) : List Char :=
  intToChars c.x ++ ' ' :: intToChars c.y

/-- `func printCells(w io.Writer, cells Cells) error` (src/main.go lines
139-149) as the list of lines it writes: `fmt.Fprintf(w, "%s\n\n",
FILE_HEADER)` produces the header line and a blank line, then one `x y`
line per cell in map order. -/
def printCells (cells : List Cell) : List (List Char) :=
  FILE_HEADER :: [] :: cells.map cellLine

/-- `func runGameOfLife(inputFile string, iterations int) error`
(src/main.go lines 151-194).  `readFile` models the file system
(`os.Open` + line scanning), `inputArgVal` the value of the global
`*inputArg` flag (src/main.go line 14), and `inputFile` the function's own
first parameter.  Line 152 of the source reads `parseCells(*inputArg)`, so
the cells are loaded from `inputArgVal`; the `inputFile` parameter is never
used.  The result is the list of lines written to standard output. -/
def runGameOfLife (readFile : List Char → List (List Char))
    (inputArgVal : List Char) (inputFile : List Char) (iterations : Nat) :
    Except ParseError (List (List Char)) :=
  match parseCells (readFile inputArgVal) with
  | Except.error e => Except.error e
  | Except.ok cells => Except.ok (printCells (runSimulation cells iterations))

/-- Concrete file fixture: a valid Life 1.06 file holding the single cell
`(1, 1)`. -/
def fileA : List (List Char) := ["#Life 1.06".toList, "1 1".toList]

/-- Concrete file fixture: a valid Life 1.06 file holding the single cell
`(2, 2)`. -/
def fileB : List (List Char) := ["#Life 1.06".toList, "2 2".toList]

/-- A two-file file system: path `"a"` holds `fileA`, every other path
holds `fileB`. -/
def readFileExample (path : List Char) : List (List Char) :=
  if path = "a".toList then fileA else fileB

/-- The cells accumulated by the scanner loop over a prefix of lines on
which it does not abort: comment lines are skipped and each scanned cell is
added to the map. -/
def prefixCells (cells : List Cell) : List (List Char) → List Cell
  | [] => cells
  | rawLine :: rest =>
    let line := trimSpace rawLine
    if isCommentLine line then prefixCells cells rest
    else
      match parseLine line with
      | some cell => prefixCells (addCell cells cell) rest
      | none => cells

/-- A line the scanner loop of `parseCells` passes without aborting: a
comment line, or a line scanning as two integers. -/
def goodLine (l : List Char) : Prop :=
  isCommentLine (trimSpace l) = true ∨ (parseLine (trimSpace l)).isSome = true

instance {ε α : Type} [DecidableEq ε] [DecidableEq α] : DecidableEq (Except ε α) := fun a b =>
  match a, b with
  | Except.error e1, Except.error e2 =>
    if h : e1 = e2 then Decidable.isTrue (by rw [h])
    else Decidable.isFalse (by intro hc; injection hc; contradiction)
  | Except.error _, Except.ok _ => Decidable.isFalse (fun hc => Except.noConfusion hc)
  | Except.ok _, Except.error _ => Decidable.isFalse (fun hc => Except.noConfusion hc)
  | Except.ok a1, Except.ok a2 =>
    if h : a1 = a2 then Decidable.isTrue (by rw [h])
    else Decidable.isFalse (by intro hc; injection hc; contradiction)

theorem hasCell_eq_true_iff (cells : List Cell) (c : Cell) :
    hasCell cells c = true ↔ c ∈ cells := by
  simp [hasCell]

theorem mem_addCell {cells : List Cell} {a c : Cell} :
    c ∈ addCell cells a ↔ c = a ∨ c ∈ cells := by
  unfold addCell
  split
  case isTrue h =>
    rw [hasCell_eq_true_iff] at h
    constructor
    · exact Or.inr
    · rintro (rfl | hc)
      · exact h
      · exact hc
  case isFalse h =>
    simp [List.mem_cons]

theorem mem_foldl_addCell (l : List Cell) :
    ∀ (acc : List Cell) (c : Cell), c ∈ l.foldl addCell acc ↔ c ∈ acc ∨ c ∈ l := by
  induction l with
  | nil => simp
  | cons x l ih =>
    intro acc c
    simp only [List.foldl_cons, ih, mem_addCell, List.mem_cons]
    tauto

theorem mem_foldl_addCell_if (p : Cell → Bool) (l : List Cell) :
    ∀ (acc : List Cell) (c : Cell),
      c ∈ l.foldl (fun acc x => if p x then addCell acc x else acc) acc ↔
        c ∈ acc ∨ (c ∈ l ∧ p c = true) := by
  induction l with
  | nil => simp
  | cons x l ih =>
    intro acc c
    simp only [List.foldl_cons, ih, List.mem_cons]
    by_cases hp : p x
    · simp only [if_pos hp, mem_addCell]
      constructor
      · rintro ((rfl | hacc) | hl)
        · exact Or.inr ⟨Or.inl rfl, hp⟩
        · exact Or.inl hacc
        · exact Or.inr ⟨Or.inr hl.1, hl.2⟩
      · rintro (hacc | ⟨(rfl | hl), hc⟩)
        · exact Or.inl (Or.inr hacc)
        · exact Or.inl (Or.inl rfl)
        · exact Or.inr ⟨hl, hc⟩
    · simp only [if_neg hp]
      constructor
      · rintro (hacc | hl)
        · exact Or.inl hacc
        · exact Or.inr ⟨Or.inr hl.1, hl.2⟩
      · rintro (hacc | ⟨(rfl | hl), hc⟩)
        · exact Or.inl hacc
        · exact absurd hc hp
        · exact Or.inr ⟨hl, hc⟩

theorem mem_removeCell {cells : List Cell} {a c : Cell} :
    c ∈ removeCell cells a ↔ c ∈ cells ∧ c ≠ a := by
  simp [removeCell]

theorem mem_foldl_removeCell (l : List Cell) :
    ∀ (cells : List Cell) (c : Cell),
      c ∈ l.foldl removeCell cells ↔ c ∈ cells ∧ c ∉ l := by
  induction l with
  | nil => simp
  | cons x l ih =>
    intro cells c
    simp only [List.foldl_cons, ih, mem_removeCell, List.mem_cons]
    tauto

theorem mem_deadNeighbors {cells : List Cell} {c : Cell} :
    c ∈ deadNeighbors cells ↔ (∃ b ∈ cells, c ∈ b.neighbors) ∧ c ∉ cells := by
  simp only [deadNeighbors, mem_foldl_addCell, List.not_mem_nil, false_or,
    List.mem_flatMap, List.mem_filter, Bool.not_eq_eq_eq_not, Bool.not_true,
    hasCell, decide_eq_false_iff_not]
  tauto

theorem numAliveNeighbors_congr {l1 l2 : List Cell} (h : ∀ a, a ∈ l1 ↔ a ∈ l2)
    (c : Cell) : numAliveNeighbors l1 c = numAliveNeighbors l2 c := by
  unfold numAliveNeighbors
  apply List.countP_congr
  intro a _
  simp [hasCell, h a]

theorem mem_step {cells : List Cell} {c : Cell} :
    c ∈ step cells ↔
      (c ∈ cells ∧ (numAliveNeighbors cells c = 2 ∨ numAliveNeighbors cells c = 3)) ∨
      (c ∉ cells ∧ (∃ b ∈ cells, c ∈ b.neighbors) ∧ numAliveNeighbors cells c = 3) := by
  unfold step
  simp only [mem_foldl_addCell, mem_foldl_removeCell, mem_foldl_addCell_if,
    List.not_mem_nil, false_or, mem_deadNeighbors]
  simp only [decide_eq_true_eq, beq_iff_eq]
  by_cases hc : c ∈ cells
  · simp only [hc, true_and, not_true_eq_false, false_and, and_false, or_false]
    omega
  · simp only [hc, false_and, and_false, false_or, not_false_eq_true, true_and,
      and_true]

theorem neighbors_characterization (x y : Int)
    (hx1 : minInt64 ≤ x) (hx2 : x ≤ maxInt64)
    (hy1 : minInt64 ≤ y) (hy2 : y ≤ maxInt64) :
    (∀ d : Cell, d ∈ (Cell.mk x y).neighbors ↔
      ((d.x = x - 1 ∨ d.x = x ∨ d.x = x + 1) ∧
       (d.y = y - 1 ∨ d.y = y ∨ d.y = y + 1) ∧
       d ≠ Cell.mk x y ∧
       minInt64 ≤ d.x ∧ d.x ≤ maxInt64 ∧ minInt64 ≤ d.y ∧ d.y ≤ maxInt64)) ∧
    (Cell.mk x y).neighbors.Nodup ∧
    (Cell.mk x y).neighbors.length ≤ 8 ∧
    ((Cell.mk x y).neighbors.length < 8 →
      x = minInt64 ∨ x = maxInt64 ∨ y = minInt64 ∨ y = maxInt64) := by
  simp only [minInt64, maxInt64] at hx1 hx2 hy1 hy2
  refine ⟨?_, ?_, ?_, ?_⟩
  · intro d
    obtain ⟨dx, dy⟩ := d
    simp only [Cell.neighbors, yieldForX, List.mem_append, ne_eq,
      minInt64, maxInt64]
    split_ifs <;>
      simp only [List.mem_append, List.mem_singleton, List.not_mem_nil,
        Cell.mk.injEq, or_false, false_or] <;>
      first
      | omega
      | (simp_all; omega)
      | simp_all
  · simp only [Cell.neighbors, yieldForX, minInt64, maxInt64]
    split_ifs <;>
      simp only [List.cons_append, List.nil_append, List.singleton_append,
        List.append_nil, List.append_assoc] <;>
      simp only [List.nodup_cons, List.nodup_nil, List.mem_cons,
        List.not_mem_nil, Cell.mk.injEq, not_or, and_true] <;>
      first
      | omega
      | (simp_all; omega)
      | simp_all
  · simp only [Cell.neighbors, yieldForX, minInt64, maxInt64]
    split_ifs <;>
      simp only [List.length_append, List.length_singleton, List.length_nil] <;>
      first
      | omega
      | (simp_all; omega)
      | simp_all
  · simp only [Cell.neighbors, yieldForX, minInt64, maxInt64]
    split_ifs <;> simp only [List.length_append, List.length_singleton,
      List.length_nil, minInt64, maxInt64] <;>
      first
      | omega
      | (simp_all; omega)
      | simp_all

theorem mem_step_congr {l1 l2 : List Cell} (h : ∀ a, a ∈ l1 ↔ a ∈ l2) (c : Cell) :
    c ∈ step l1 ↔ c ∈ step l2 := by
  simp only [mem_step, numAliveNeighbors_congr h, h]

theorem mem_runSimulation_congr (n : Nat) :
    ∀ {l1 l2 : List Cell}, (∀ a, a ∈ l1 ↔ a ∈ l2) →
      ∀ c, c ∈ runSimulation l1 n ↔ c ∈ runSimulation l2 n := by
  induction n with
  | zero => intro l1 l2 h c; exact h c
  | succ n ih =>
    intro l1 l2 h c
    exact ih (mem_step_congr h) c


theorem parseLine_nil : parseLine [] = none := rfl

theorem isCommentLine_nil : isCommentLine [] = false := rfl

theorem parseCellsAux_malformed (bad : List Char)
    (hbad1 : isCommentLine (trimSpace bad) = false)
    (hbad2 : parseLine (trimSpace bad) = none) :
    ∀ (pre : List (List Char)) (cells : List Cell) (hf : Bool)
      (post : List (List Char)), (∀ l ∈ pre, goodLine l) →
      parseCellsAux cells hf (pre ++ bad :: post) =
        Except.error (ParseError.malformedLine ((prefixCells cells pre).length + 1)) := by
  intro pre
  induction pre with
  | nil =>
    intro cells hf post _
    simp [parseCellsAux, hbad1, hbad2, prefixCells]
  | cons l pre ih =>
    intro cells hf post hgood
    have hrest : ∀ l2 ∈ pre, goodLine l2 :=
      fun l2 h2 => hgood l2 (List.mem_cons_of_mem l h2)
    cases hc : isCommentLine (trimSpace l) with
    | true =>
      simp only [List.cons_append, parseCellsAux, prefixCells, hc, if_true]
      exact ih cells _ post hrest
    | false =>
      have hl := hgood l (List.mem_cons_self l pre)
      rcases hl with hcomm | hp
      · rw [hc] at hcomm
        exact absurd hcomm (by simp)
      · rcases Option.isSome_iff_exists.mp hp with ⟨cell, hcell⟩
        simp only [List.cons_append, parseCellsAux, prefixCells, hc,
          Bool.false_eq_true, if_false, hcell]
        exact ih (addCell cells cell) hf post hrest

theorem addCell_ne_nil (cells : List Cell) (cell : Cell) : addCell cells cell ≠ [] := by
  unfold addCell
  split
  case isTrue h =>
    intro hnil
    rw [hasCell_eq_true_iff] at h
    rw [hnil] at h
    exact List.not_mem_nil cell h
  case isFalse h => exact List.cons_ne_nil cell cells

theorem parseCellsAux_no_header_of_nonempty :
    ∀ (lines : List (List Char)) (cells : List Cell), cells ≠ [] →
      (∀ l ∈ lines, isCommentLine (trimSpace l) = false →
        (parseLine (trimSpace l)).isSome = true) →
      parseCellsAux cells false lines = Except.error ParseError.missingHeader := by
  intro lines
  induction lines with
  | nil => intro cells _ _; rfl
  | cons l rest ih =>
    intro cells hne hgood
    have hrest : ∀ l2 ∈ rest, isCommentLine (trimSpace l2) = false →
        (parseLine (trimSpace l2)).isSome = true :=
      fun l2 h2 => hgood l2 (List.mem_cons_of_mem l h2)
    have hlen : (cells.length == 0) = false := by
      simp [List.length_eq_zero, hne]
    cases hc : isCommentLine (trimSpace l) with
    | true =>
      simp only [parseCellsAux, hc, if_true, hlen, Bool.and_false, Bool.or_false]
      exact ih cells hne hrest
    | false =>
      have hp := hgood l (List.mem_cons_self l rest) hc
      rcases Option.isSome_iff_exists.mp hp with ⟨cell, hcell⟩
      simp only [parseCellsAux, hc, Bool.false_eq_true, if_false, hcell]
      exact ih (addCell cells cell) (addCell_ne_nil cells cell) hrest

theorem parseCellsAux_error_of_blank :
    ∀ (lines : List (List Char)) (cells : List Cell) (hf : Bool),
      (∃ l ∈ lines, trimSpace l = []) →
      ∃ k, parseCellsAux cells hf lines = Except.error (ParseError.malformedLine k) := by
  intro lines
  induction lines with
  | nil =>
    intro cells hf hblank
    rcases hblank with ⟨l, hmem, _⟩
    exact absurd hmem (List.not_mem_nil l)
  | cons l rest ih =>
    intro cells hf hblank
    cases hc : isCommentLine (trimSpace l) with
    | true =>
      have hblank2 : ∃ l2 ∈ rest, trimSpace l2 = [] := by
        rcases hblank with ⟨l2, hmem, h2⟩
        rcases List.mem_cons.mp hmem with rfl | hmem2
        · rw [h2] at hc
          exact absurd hc (by rw [isCommentLine_nil]; simp)
        · exact ⟨l2, hmem2, h2⟩
      simp only [parseCellsAux, hc, if_true]
      exact ih cells _ hblank2
    | false =>
      cases hcell : parseLine (trimSpace l) with
      | none =>
        refine ⟨cells.length + 1, ?_⟩
        simp only [parseCellsAux, hc, Bool.false_eq_true, if_false, hcell]
      | some cell =>
        have hblank2 : ∃ l2 ∈ rest, trimSpace l2 = [] := by
          rcases hblank with ⟨l2, hmem, h2⟩
          rcases List.mem_cons.mp hmem with rfl | hmem2
          · rw [h2] at hcell
            rw [parseLine_nil] at hcell
            exact absurd hcell (by simp)
          · exact ⟨l2, hmem2, h2⟩
        simp only [parseCellsAux, hc, Bool.false_eq_true, if_false, hcell]
        exact ih (addCell cells cell) hf hblank2

/-- C1: for every cell set `C`, one generation step produces exactly the
set of cells of `C` whose live-neighbor count against the pre-step snapshot
`C` is 2 or 3, united with the cells not in `C` that are a Moore neighbor
(as enumerated by `Cell.neighbors`) of some cell of `C` and whose
live-neighbor count against `C` is exactly 3. -/
theorem step_next_generation (C : List Cell) (c : Cell) :
    c ∈ step C ↔
      (c ∈ C ∧ (numAliveNeighbors C c = 2 ∨ numAliveNeighbors C c = 3)) ∨
      (c ∉ C ∧ (∃ b ∈ C, c ∈ b.neighbors) ∧ numAliveNeighbors C c = 3) :=
  mem_step

/-- C2-witness: the characterization instantiated at the cell `(0, 0)`:
`(1, 1)` is one of its neighbors and it has at most 8 of them. -/
theorem neighbors_characterization_witness :
    Cell.mk 1 1 ∈ (Cell.mk 0 0).neighbors ∧ (Cell.mk 0 0).neighbors.length ≤ 8 := by
  have h := neighbors_characterization 0 0 (by decide) (by decide) (by decide) (by decide)
  exact ⟨(h.1 (Cell.mk 1 1)).mpr (by decide), h.2.2.1⟩

/-- C3: the simulation result depends only on the set of coordinates of the
input, not on its in-memory enumeration order: two lists that are equal as
sets produce, after any number of iterations, results that are equal as
sets. -/
theorem runSimulation_order_independent (l1 l2 : List Cell) (n : Nat)
    (h : l1.toFinset = l2.toFinset) :
    (runSimulation l1 n).toFinset = (runSimulation l2 n).toFinset := by
  have hmem : ∀ a, a ∈ l1 ↔ a ∈ l2 := by
    intro a
    rw [← List.mem_toFinset, ← List.mem_toFinset, h]
  ext a
  simp only [List.mem_toFinset]
  exact mem_runSimulation_congr n hmem a

/-- C3-witness: one step on the two orderings of `{(0,0), (1,0)}` gives
set-equal results. -/
theorem runSimulation_order_independent_witness :
    (runSimulation [Cell.mk 0 0, Cell.mk 1 0] 1).toFinset =
      (runSimulation [Cell.mk 1 0, Cell.mk 0 0] 1).toFinset :=
  runSimulation_order_independent [Cell.mk 0 0, Cell.mk 1 0]
    [Cell.mk 1 0, Cell.mk 0 0] 1 (by decide)

/-- C4: the round-trip property fails on the code: `printCells` emits a
blank line directly after the header token, and feeding the printed output
of the non-empty cell set `{(1, 2)}` back into `parseCells` hits that blank
line and aborts with a malformed-line error instead of returning the
original set. -/
theorem printCells_output_rejected_by_parseCells :
    printCells [Cell.mk 1 2] = [FILE_HEADER, [], "1 2".toList] ∧
    parseCells (printCells [Cell.mk 1 2]) =
      Except.error (ParseError.malformedLine 1) :=
  ⟨rfl, rfl⟩

/-- C5: `runGameOfLife` loads the cells from the global `inputArg` flag
value, not from its explicit `inputFile` parameter: with the flag set to
`"b"` (whose file holds `(2, 2)`) and the parameter set to `"a"` (whose
file holds `(1, 1)`), the output lists the cell of file `"b"`. -/
theorem runGameOfLife_reads_global_flag :
    runGameOfLife readFileExample "b".toList "a".toList 0 =
      Except.ok ["#Life 1.06".toList, [], "2 2".toList] ∧
    parseCells (readFileExample "a".toList) = Except.ok [Cell.mk 1 1] ∧
    parseCells (readFileExample "b".toList) = Except.ok [Cell.mk 2 2] :=
  ⟨rfl, rfl, rfl⟩

/-- C6-counterexample: in the file `["#Life 1.06", "#comment", "0 0",
"bad"]` the offending line is the 4th (lines 1 and 2 are comments and line
3 scans as a coordinate pair), yet the error reports the number 2, not the
line's 1-based ordinal 4. -/
theorem parseCells_misreports_line_ordinal :
    parseCells ["#Life 1.06".toList, "#comment".toList, "0 0".toList, "bad".toList] =
      Except.error (ParseError.malformedLine 2) ∧
    parseLine (trimSpace "0 0".toList) = some (Cell.mk 0 0) ∧
    parseLine (trimSpace "bad".toList) = none ∧
    (2 : Nat) ≠ 4 :=
  ⟨rfl, rfl, rfl, by decide⟩

/-- C6-amended: on the first non-comment line that does not scan as two
integers, `parseCells` aborts immediately with a malformed-line error and
returns no cell set; the number it reports is the number of distinct cells
parsed from the earlier lines plus one (comment lines and duplicate
coordinates are not counted), which need not be the offending line's
1-based ordinal. -/
theorem parseCells_malformed_error_count (pre post : List (List Char))
    (bad : List Char) (hpre : ∀ l ∈ pre, goodLine l)
    (hbad1 : isCommentLine (trimSpace bad) = false)
    (hbad2 : parseLine (trimSpace bad) = none) :
    parseCells (pre ++ bad :: post) =
      Except.error (ParseError.malformedLine ((prefixCells [] pre).length + 1)) :=
  parseCellsAux_malformed bad hbad1 hbad2 pre [] false post hpre

/-- C6-amended witness: the file `["#Life 1.06", "x"]` aborts on its second
line reporting the number 1. -/
theorem parseCells_malformed_error_count_witness :
    parseCells (["#Life 1.06".toList] ++ "x".toList :: []) =
      Except.error (ParseError.malformedLine
        ((prefixCells [] ["#Life 1.06".toList]).length + 1)) :=
  parseCells_malformed_error_count ["#Life 1.06".toList] [] "x".toList
    (by intro l h; left; simp at h; rw [h]; rfl) (by decide) (by decide)

/-- C7: a file whose non-comment lines all scan as coordinate pairs, which
has at least one such line, and whose leading comment lines never equal the
header token (so the header nowhere occurs before a coordinate line), is
rejected with the missing-header error and no cell set is returned. -/
theorem parseCells_missing_header_error (lines : List (List Char))
    (hgood : ∀ l ∈ lines, isCommentLine (trimSpace l) = false →
      (parseLine (trimSpace l)).isSome = true)
    (hsome : ∃ l ∈ lines, isCommentLine (trimSpace l) = false)
    (hnohdr : ∀ l ∈ lines.takeWhile (fun l2 => isCommentLine (trimSpace l2)),
      ¬trimSpace l = FILE_HEADER) :
    parseCells lines = Except.error ParseError.missingHeader := by
  unfold parseCells
  induction lines with
  | nil =>
    rcases hsome with ⟨l, hmem, _⟩
    exact absurd hmem (List.not_mem_nil l)
  | cons l rest ih =>
    have hrest : ∀ l2 ∈ rest, isCommentLine (trimSpace l2) = false →
        (parseLine (trimSpace l2)).isSome = true :=
      fun l2 h2 => hgood l2 (List.mem_cons_of_mem l h2)
    cases hc : isCommentLine (trimSpace l) with
    | true =>
      have hhd : ¬trimSpace l = FILE_HEADER := by
        apply hnohdr
        rw [List.takeWhile_cons, hc]
        exact List.mem_cons_self l _
      have hbeq : (trimSpace l == FILE_HEADER) = false := by
        simp [hhd]
      simp only [parseCellsAux, hc, if_true, hbeq, Bool.false_and, Bool.or_false]
      apply ih hrest
      · rcases hsome with ⟨l2, hmem, h2⟩
        rcases List.mem_cons.mp hmem with rfl | hmem2
        · rw [hc] at h2
          exact absurd h2 (by simp)
        · exact ⟨l2, hmem2, h2⟩
      · intro l2 h2
        apply hnohdr
        rw [List.takeWhile_cons, hc]
        exact List.mem_cons_of_mem l h2
    | false =>
      have hp := hgood l (List.mem_cons_self l rest) hc
      rcases Option.isSome_iff_exists.mp hp with ⟨cell, hcell⟩
      simp only [parseCellsAux, hc, Bool.false_eq_true, if_false, hcell]
      exact parseCellsAux_no_header_of_nonempty rest (addCell [] cell)
        (addCell_ne_nil [] cell) hrest

/-- C7-witness: the header-less single-line file `["0 0"]` is rejected with
the missing-header error. -/
theorem parseCells_missing_header_error_witness :
    parseCells ["0 0".toList] = Except.error ParseError.missingHeader :=
  parseCells_missing_header_error ["0 0".toList]
    (by intro l h; simp at h; rw [h]; intro; rfl)
    ⟨"0 0".toList, by simp, by decide⟩
    (by decide)

/-- C8: the blinker `{(0,0), (1,0), (2,0)}` becomes the vertical line
`{(1,-1), (1,0), (1,1)}` after exactly one step, and returns to the
horizontal line after two steps. -/
theorem blinker_oscillates :
    (runSimulation [Cell.mk 0 0, Cell.mk 1 0, Cell.mk 2 0] 1).toFinset =
      {Cell.mk 1 (-1), Cell.mk 1 0, Cell.mk 1 1} ∧
    (runSimulation [Cell.mk 0 0, Cell.mk 1 0, Cell.mk 2 0] 2).toFinset =
      {Cell.mk 0 0, Cell.mk 1 0, Cell.mk 2 0} :=
  ⟨by decide, by decide⟩

/-- C9: running the simulation for 0 iterations performs no transition and
returns the input cell set unchanged (in particular equal as a set). -/
theorem runSimulation_zero_iterations (cells : List Cell) :
    runSimulation cells 0 = cells :=
  rfl

/-- C10: a blank or whitespace-only line (which is not comment-prefixed)
makes `parseCells` fail with a malformed-line error rather than being
skipped; in particular the blank line `printCells` emits right after the
header token is itself rejected whenever printed output is parsed back,
with the malformed-line error reporting 1. -/
theorem parseCells_rejects_blank_lines :
    (∀ lines : List (List Char), (∃ l ∈ lines, trimSpace l = []) →
      ∃ k, parseCells lines = Except.error (ParseError.malformedLine k)) ∧
    (∀ cells : List Cell,
      parseCells (printCells cells) = Except.error (ParseError.malformedLine 1)) := by
  constructor
  · intro lines hblank
    exact parseCellsAux_error_of_blank lines [] false hblank
  · intro cells
    rfl

/-- C10-witness: the file `["#Life 1.06", ""]` is rejected with a
malformed-line error. -/
theorem parseCells_rejects_blank_lines_witness :
    ∃ k, parseCells ["#Life 1.06".toList, []] =
      Except.error (ParseError.malformedLine k) :=
  parseCells_rejects_blank_lines.1 ["#Life 1.06".toList, []]
    ⟨[], by simp, rfl⟩
